import Mathlib

/-!
Verification of the detection-evaluation engine of the `ai-assesment-locofy`
repository.

The batch evaluator lives in `evaluate.mjs` (IoU geometry, ground-truth-first
greedy matcher, aggregator, batch driver).  The interactive export path lives
in `src/components/DataExport.tsx` (its own IoU without the zero-union guard,
a prediction-first greedy matcher, per-image summary with an `overall` entry).

Numbers are modelled as rationals (`ℚ`); JavaScript counts are integer-valued
JS numbers and are modelled as `ℤ` where the code subtracts, `ℕ` where the
code only increments.  JavaScript's `NaN` (from `0 / 0` in the interactive
IoU) is modelled by `Option ℚ` with `none` for NaN.
-/

/-- The fixed category set `UI_TAGS` of `evaluate.mjs` (also the local `tags`
list of `DataExport.tsx`). -/
def UI_TAGS : List String := ["Button", "Input", "Radio", "Dropdown"]

/-- The fixed matching threshold `IOU_THRESHOLD = 0.5`. -/
def IOU_THRESHOLD : ℚ := 1/2

/-- A bounding box `[x1, y1, x2, y2]` as consumed by `calculateIoU`. -/
structure Box where
  x1 : ℚ
  y1 : ℚ
  x2 : ℚ
  y2 : ℚ
deriving DecidableEq

/-- `Math.max(0, xB - xA) * Math.max(0, yB - yA)` of `calculateIoU`:
the (clamped) intersection area of two boxes. -/
def interArea (boxA boxB : Box) : ℚ :=
  max 0 (min boxA.x2 boxB.x2 - max boxA.x1 boxB.x1) *
  max 0 (min boxA.y2 boxB.y2 - max boxA.y1 boxB.y1)

/-- `(box[2] - box[0]) * (box[3] - box[1])`: the signed area of one box. -/
def boxArea (box : Box) : ℚ := (box.x2 - box.x1) * (box.y2 - box.y1)

/-- `boxAArea + boxBArea - interArea` of `calculateIoU`. -/
def unionArea (boxA boxB : Box) : ℚ := boxArea boxA + boxArea boxB - interArea boxA boxB

/-- `calculateIoU` of `evaluate.mjs`: returns `0` when the union area is `0`,
otherwise the ratio of intersection to union. -/
def calculateIoU (boxA boxB : Box) : ℚ :=
  if unionArea boxA boxB = 0 then 0 else interArea boxA boxB / unionArea boxA boxB

/-- `calculateIoU` of `DataExport.tsx`: the same ratio but with no zero-union
guard, so a zero union divides `0 / 0`, which is JavaScript `NaN`, modelled as
`none`. -/
def deCalculateIoU (boxA boxB : Box) : Option ℚ :=
  if unionArea boxA boxB = 0 then none
  else some (interArea boxA boxB / unionArea boxA boxB)

/-- One element of a label-set document: `{ "tag": ..., "bbox": [...] }`. -/
structure Label where
  tag : String
  bbox : Box
deriving DecidableEq

/-- A label-set document (ground truth or prediction):
`{ "image_filename": ..., "labels": [...] }`. -/
structure LabelSet where
  image_filename : String
  labels : List Label
deriving DecidableEq

/-- The mutable state of one per-tag matching pass of `evaluateSingleFile`:
`truePositives` and the `matchedPredIndices` set.  Indices are `ℤ` because the
initial `bestMatchIndex` is `-1`. -/
structure MatchState where
  truePositives : ℕ
  matchedPredIndices : List ℤ
deriving DecidableEq

/-- One step of the `predBoxes.forEach((predBox, i) => ...)` scan of
`evaluateSingleFile`: skip already-matched indices, update the best candidate
only on strictly greater IoU. -/
def bestStep (matched : List ℤ) (gtBox : Box) (acc : ℚ × ℤ) (p : ℕ × Label) : ℚ × ℤ :=
  if (p.1 : ℤ) ∈ matched then acc
  else if acc.1 < calculateIoU gtBox p.2.bbox then (calculateIoU gtBox p.2.bbox, (p.1 : ℤ))
  else acc

/-- The whole scan for one ground-truth box: starts from
`bestIoU = 0, bestMatchIndex = -1`. -/
def bestFor (predBoxes : List Label) (matched : List ℤ) (gtBox : Box) : ℚ × ℤ :=
  predBoxes.enum.foldl (bestStep matched gtBox) (0, -1)

/-- The body of the `for (const gtBox of gtBoxes)` loop of
`evaluateSingleFile`: a true positive is recorded, and the best index marked
used, exactly when the best IoU reaches the threshold. -/
def matchGtBox (predBoxes : List Label) (st : MatchState) (gtLabel : Label) : MatchState :=
  let best := bestFor predBoxes st.matchedPredIndices gtLabel.bbox
  if IOU_THRESHOLD ≤ best.1 then ⟨st.truePositives + 1, best.2 :: st.matchedPredIndices⟩
  else st

/-- The full per-category matching pass of `evaluateSingleFile`. -/
def matchCategory (gtBoxes predBoxes : List Label) : MatchState :=
  gtBoxes.foldl (matchGtBox predBoxes) ⟨0, []⟩

/-- One per-tag metrics record of `evaluateSingleFile` /
`aggregateResults` (field order as in the JS object literal). -/
structure TagMetrics where
  true_positives : ℤ
  false_positives : ℤ
  false_negatives : ℤ
  ground_truth_count : ℤ
  predicted_count : ℤ
  precision : ℚ
  «recall» : ℚ
  f1_score : ℚ
deriving DecidableEq

/-- The per-tag body of `evaluateSingleFile`. -/
def evaluateTag (gtData predData : LabelSet) (tag : String) : TagMetrics :=
  let gtBoxes := gtData.labels.filter (fun l => l.tag == tag)
  let predBoxes := predData.labels.filter (fun l => l.tag == tag)
  let st := matchCategory gtBoxes predBoxes
  let truePositives : ℤ := st.truePositives
  let falsePositives : ℤ := (predBoxes.length : ℤ) - truePositives
  let falseNegatives : ℤ := (gtBoxes.length : ℤ) - truePositives
  let precision : ℚ :=
    if 0 < truePositives + falsePositives then
      (truePositives : ℚ) / ((truePositives : ℚ) + (falsePositives : ℚ))
    else 0
  let «recall» : ℚ :=
    if 0 < truePositives + falseNegatives then
      (truePositives : ℚ) / ((truePositives : ℚ) + (falseNegatives : ℚ))
    else 0
  let f1Score : ℚ :=
    if 0 < precision + «recall» then 2 * (precision * «recall») / (precision + «recall») else 0
  ⟨truePositives, falsePositives, falseNegatives,
   (gtBoxes.length : ℤ), (predBoxes.length : ℤ), precision, «recall», f1Score⟩

/-- `evaluateSingleFile` of `evaluate.mjs`: the metrics object keyed by tag,
modelled as an association list in `UI_TAGS` order. -/
def evaluateSingleFile (gtData predData : LabelSet) : List (String × TagMetrics) :=
  UI_TAGS.map (fun tag => (tag, evaluateTag gtData predData tag))

/-- The five running counters of `aggregateResults` (`tagStats` and the
`overall` accumulator). -/
structure TagStats where
  true_positives : ℤ
  false_positives : ℤ
  false_negatives : ℤ
  ground_truth_count : ℤ
  predicted_count : ℤ
deriving DecidableEq

/-- Adding one metrics record's counts into an accumulator (`tagStats.x += ...`
and the body of the `Overall` reduce). -/
def addStats (acc : TagStats) (m : TagMetrics) : TagStats :=
  ⟨acc.true_positives + m.true_positives,
   acc.false_positives + m.false_positives,
   acc.false_negatives + m.false_negatives,
   acc.ground_truth_count + m.ground_truth_count,
   acc.predicted_count + m.predicted_count⟩

/-- The per-file step of `aggregateResults` for one tag: counts are added only
when `fileMetrics[tag]` is present. -/
def statsStep (tag : String) (acc : TagStats) (fileMetrics : List (String × TagMetrics)) :
    TagStats :=
  match fileMetrics.lookup tag with
  | some m => addStats acc m
  | none => acc

/-- Deriving precision / recall / F1 from summed counts, exactly as both the
per-tag and the `Overall` blocks of `aggregateResults` do. -/
def withRates (s : TagStats) : TagMetrics :=
  let precision : ℚ :=
    if 0 < s.true_positives + s.false_positives then
      (s.true_positives : ℚ) / ((s.true_positives : ℚ) + (s.false_positives : ℚ))
    else 0
  let «recall» : ℚ :=
    if 0 < s.true_positives + s.false_negatives then
      (s.true_positives : ℚ) / ((s.true_positives : ℚ) + (s.false_negatives : ℚ))
    else 0
  let f1Score : ℚ :=
    if 0 < precision + «recall» then 2 * (precision * «recall») / (precision + «recall») else 0
  ⟨s.true_positives, s.false_positives, s.false_negatives,
   s.ground_truth_count, s.predicted_count, precision, «recall», f1Score⟩

/-- `aggregateResults` of `evaluate.mjs`: per-tag sums in `UI_TAGS` order,
then the `Overall` entry reduced over the per-tag records. -/
def aggregateResults (allMetrics : List (List (String × TagMetrics))) :
    List (String × TagMetrics) :=
  let perTag := UI_TAGS.map (fun tag =>
    (tag, withRates (allMetrics.foldl (statsStep tag) ⟨0, 0, 0, 0, 0⟩)))
  let overall := perTag.foldl (fun acc p => addStats acc p.2) ⟨0, 0, 0, 0, 0⟩
  perTag ++ [("Overall", withRates overall)]

/-- Modelled from the spec: `precision = TP / (TP + FP)` if `(TP+FP) > 0`
else `0`. -/
def specPrecision (tp fp : ℤ) : ℚ :=
  if 0 < tp + fp then (tp : ℚ) / ((tp : ℚ) + (fp : ℚ)) else 0

/-- Modelled from the spec: `recall = TP / (TP + FN)` if `(TP+FN) > 0`
else `0`. -/
def specRecall (tp fn : ℤ) : ℚ :=
  if 0 < tp + fn then (tp : ℚ) / ((tp : ℚ) + (fn : ℚ)) else 0

/-- Modelled from the spec: `f1 = 2·precision·recall / (precision+recall)` if
`(precision+recall) > 0` else `0`. -/
def specF1 (precision rec : ℚ) : ℚ :=
  if 0 < precision + rec then 2 * (precision * rec) / (precision + rec) else 0

/-- Modelled from the spec (reference assignment of claim C1): scanning the
not-yet-matched predicted candidates left to right for one ground-truth box,
updating the best candidate only on strictly greater IoU, so ties keep the
earliest-encountered candidate.  `none` means no candidate was ever better
than the initial best IoU of `0`. -/
def specBestStep (gtBox : Box) (acc : ℚ × Option ℕ) (c : ℕ × Box) : ℚ × Option ℕ :=
  if acc.1 < calculateIoU gtBox c.2 then (calculateIoU gtBox c.2, some c.1) else acc

/-- Modelled from the spec: the best not-yet-matched predicted candidate for
one ground-truth box. -/
def specBest (gtBox : Box) (avail : List (ℕ × Box)) : ℚ × Option ℕ :=
  avail.foldl (specBestStep gtBox) (0, none)

/-- Modelled from the spec: iterate ground-truth boxes in list order over the
list `avail` of still-unmatched predicted boxes (index / box pairs); record a
true positive and remove the matched candidate exactly when the best IoU
reaches `0.5`. -/
def specGreedyTPAux : List (ℕ × Box) → List Box → ℕ
  | _, [] => 0
  | avail, g :: rest =>
    let best := specBest g avail
    if IOU_THRESHOLD ≤ best.1 then
      specGreedyTPAux (avail.filter (fun c => some c.1 ≠ best.2)) rest + 1
    else specGreedyTPAux avail rest

/-- Modelled from the spec: the reference greedy ground-truth-first
true-positive count for one category's ground-truth and predicted boxes. -/
def specGreedyTP (gtBoxes predBoxes : List Box) : ℕ :=
  specGreedyTPAux predBoxes.enum gtBoxes

/-- A canvas box of the interactive app (`BoundingBox` of `LabelingCanvas`):
carries a stable `id` used by the matching bookkeeping of `DataExport.tsx`. -/
structure BoundingBox where
  id : String
  tag : String
  bbox : Box
deriving DecidableEq

/-- `Math.round` on a nonnegative rational (all rounded values in
`DataExport.tsx` are nonnegative rates): half rounds up. -/
def jsRound (q : ℚ) : ℤ := ⌊q + 1/2⌋

/-- `Math.round(x * 1000) / 1000` of `DataExport.tsx`. -/
def round3 (q : ℚ) : ℚ := (jsRound (q * 1000) : ℚ) / 1000

/-- One step of the `gtBoxes.forEach(gtBox => ...)` scan of
`generateEvaluation`: skip ground truths whose `id` is already matched, keep
a candidate only when its IoU strictly beats the best so far AND reaches the
threshold.  The IoU call is the unguarded one; a `NaN` comparison is false in
JavaScript, so a `none` IoU never updates the best candidate. -/
def deBestStep (matchedGT : List String) (predBox : BoundingBox) (acc : ℚ × Option BoundingBox)
    (gtBox : BoundingBox) : ℚ × Option BoundingBox :=
  if gtBox.id ∈ matchedGT then acc
  else
    match deCalculateIoU predBox.bbox gtBox.bbox with
    | none => acc
    | some iou =>
      if acc.1 < iou ∧ IOU_THRESHOLD ≤ iou then (iou, some gtBox) else acc

/-- The body of the `predBoxes.forEach(predBox => ...)` loop of
`generateEvaluation`: state is `(truePositives, matchedGT ids)`. -/
def deMatchPred (gtBoxes : List BoundingBox) (st : ℕ × List String) (predBox : BoundingBox) :
    ℕ × List String :=
  let best := gtBoxes.foldl (deBestStep st.2 predBox) (0, none)
  match best.2 with
  | some gtBox => (st.1 + 1, gtBox.id :: st.2)
  | none => st

/-- The prediction-first matching pass of `generateEvaluation` for one tag's
boxes. -/
def deMatchTag (gtBoxes predBoxes : List BoundingBox) : ℕ × List String :=
  predBoxes.foldl (deMatchPred gtBoxes) (0, [])

/-- `const precision = truePositives > 0 ? ... : 0` of `generateEvaluation`
(line 158): note the guard is `TP > 0`, not `TP + FP > 0`. -/
def dePrecision (tp fp : ℤ) : ℚ :=
  if 0 < tp then (tp : ℚ) / ((tp : ℚ) + (fp : ℚ)) else 0

/-- `const recall = truePositives > 0 ? ... : 0` of `generateEvaluation`
(line 159). -/
def deRecall (tp fn : ℤ) : ℚ :=
  if 0 < tp then (tp : ℚ) / ((tp : ℚ) + (fn : ℚ)) else 0

/-- `const f1Score = precision + recall > 0 ? ... : 0` of
`generateEvaluation` (line 160). -/
def deF1 (precision rec : ℚ) : ℚ :=
  if 0 < precision + rec then 2 * precision * rec / (precision + rec) else 0

/-- One `evaluation.summary[tag]` record of `generateEvaluation` (stored rates
are rounded to 3 decimal digits). -/
def deTagMetrics (gtBoxes predBoxes : List BoundingBox) : TagMetrics :=
  let truePositives : ℤ := (deMatchTag gtBoxes predBoxes).1
  let falsePositives : ℤ := (predBoxes.length : ℤ) - truePositives
  let falseNegatives : ℤ := (gtBoxes.length : ℤ) - truePositives
  { true_positives := truePositives
    false_positives := falsePositives
    false_negatives := falseNegatives
    ground_truth_count := (gtBoxes.length : ℤ)
    predicted_count := (predBoxes.length : ℤ)
    precision := round3 (dePrecision truePositives falsePositives)
    «recall» := round3 (deRecall truePositives falseNegatives)
    f1_score := round3 (deF1 (dePrecision truePositives falsePositives)
      (deRecall truePositives falseNegatives)) }

/-- The per-tag `summary` entries of `generateEvaluation`, in `tags` order
(the local `tags` list equals `UI_TAGS`). -/
def deSummary (manualLabels predictedLabels : List BoundingBox) : List (String × TagMetrics) :=
  UI_TAGS.map (fun tag =>
    (tag, deTagMetrics (manualLabels.filter (fun l => l.tag == tag))
      (predictedLabels.filter (fun l => l.tag == tag))))

/-- The `evaluation.summary.overall` record of `generateEvaluation`: TP / FP /
FN are reduced over the per-tag records, but the ground-truth and predicted
counts are the lengths of the whole label lists. -/
def deOverallEntry (manualLabels predictedLabels : List BoundingBox) : TagMetrics :=
  let summary := deSummary manualLabels predictedLabels
  let totalTP : ℤ := summary.foldl (fun s p => s + p.2.true_positives) 0
  let totalFP : ℤ := summary.foldl (fun s p => s + p.2.false_positives) 0
  let totalFN : ℤ := summary.foldl (fun s p => s + p.2.false_negatives) 0
  let overallPrecision := dePrecision totalTP totalFP
  let overallRecall := deRecall totalTP totalFN
  { true_positives := totalTP
    false_positives := totalFP
    false_negatives := totalFN
    ground_truth_count := (manualLabels.length : ℤ)
    predicted_count := (predictedLabels.length : ℤ)
    precision := round3 overallPrecision
    «recall» := round3 overallRecall
    f1_score := round3 (deF1 overallPrecision overallRecall) }

/-- `generateEvaluation` of `DataExport.tsx`: produces the `summary` mapping
only when both label lists are non-empty (otherwise the handler exits with a
toast error and nothing is generated). -/
def dataExportEvaluation (manualLabels predictedLabels : List BoundingBox) :
    Option (List (String × TagMetrics)) :=
  if manualLabels.length = 0 ∨ predictedLabels.length = 0 then none
  else some (deSummary manualLabels predictedLabels ++
    [("overall", deOverallEntry manualLabels predictedLabels)])

/-- Characters after the last `.` of a filename, `none` when it has no dot. -/
def extnameAux : List Char → Option (List Char)
  | [] => none
  | c :: cs =>
    match extnameAux cs with
    | some ext => some ext
    | none => if c = '.' then some cs else none

/-- `path.extname` restricted to plain filenames (no separators), as applied
to entries of `fs.readdir`: the suffix from the last `.`, where a dot at
position 0 (a dotfile) starts no extension. -/
def extname (s : String) : String :=
  match s.data with
  | [] => ""
  | _ :: rest =>
    match extnameAux rest with
    | some ext => String.mk ('.' :: ext)
    | none => ""

/-- Outcome of the per-file `try`/`catch` body of `main`: a computed metrics
record, an `ENOENT` warning for a missing prediction file, or a reported
per-pair error (a document that fails to parse). -/
inductive PairOutcome where
  | ok (metrics : List (String × TagMetrics))
  | missingPred
  | parseError
deriving DecidableEq

/-- `true` exactly on the warning outcome. -/
def PairOutcome.isMissingPred : PairOutcome → Bool
  | .missingPred => true
  | _ => false

/-- `true` exactly on the reported-error outcome. -/
def PairOutcome.isParseError : PairOutcome → Bool
  | .parseError => true
  | _ => false

/-- The metrics of a successful outcome. -/
def PairOutcome.metricsOf : PairOutcome → Option (List (String × TagMetrics))
  | .ok m => some m
  | _ => none

/-- One iteration of the file loop of `main` for a ground-truth entry
`(name, document)`:  reading the prediction file comes before parsing, so a
missing prediction file wins over a malformed ground-truth document; a
document that fails `JSON.parse` is `none`. -/
def processPair (predDir : List (String × Option LabelSet)) (file : String)
    (gtDoc : Option LabelSet) : PairOutcome :=
  match predDir.lookup file with
  | none => .missingPred
  | some predDoc =>
    match gtDoc, predDoc with
    | some gtData, some predData => .ok (evaluateSingleFile gtData predData)
    | _, _ => .parseError

/-- The observable result of one run of `main`: exit code, which messages were
printed, and the report passed to `printReport` (if any). -/
structure MainResult where
  exitCode : ℕ
  usageShown : Bool
  dirErrorShown : Bool
  noDataShown : Bool
  warnings : List String
  errors : List String
  report : Option (List (String × TagMetrics))
deriving DecidableEq

/-- `main` of `evaluate.mjs` over an abstract filesystem: `args` is
`process.argv.slice(2)`, `gtDirListing` the result of `fs.readdir` on the
ground-truth folder (`Except.error` when the directory cannot be read, in
which case the outer catch prints and exits 1), `predDir` the prediction
folder's parsed contents. -/
def mainModel (args : List String) (gtDirListing : Except Unit (List (String × Option LabelSet)))
    (predDir : List (String × Option LabelSet)) : MainResult :=
  if args.length ≠ 2 then
    ⟨1, true, false, false, [], [], none⟩
  else
    match gtDirListing with
    | .error _ => ⟨1, false, true, false, [], [], none⟩
    | .ok gtFiles =>
      let jsonFiles := gtFiles.filter (fun p => extname p.1 == ".json")
      let outcomes := jsonFiles.map (fun p => (p.1, processPair predDir p.1 p.2))
      let allMetrics := outcomes.filterMap (fun o => o.2.metricsOf)
      let warnings := (outcomes.filter (fun o => o.2.isMissingPred)).map (fun o => o.1)
      let errors := (outcomes.filter (fun o => o.2.isParseError)).map (fun o => o.1)
      if allMetrics.length = 0 then ⟨0, false, false, true, warnings, errors, none⟩
      else ⟨0, false, false, false, warnings, errors, some (aggregateResults allMetrics)⟩

/-- The successfully loaded pairs of a run: `.json` ground-truth entries whose
prediction counterpart exists and where both documents parse. -/
def loadedPairs (gtFiles predDir : List (String × Option LabelSet)) :
    List (List (String × TagMetrics)) :=
  (gtFiles.filter (fun p => extname p.1 == ".json")).filterMap (fun p =>
    match predDir.lookup p.1, p.2 with
    | some (some predData), some gtData => some (evaluateSingleFile gtData predData)
    | _, _ => none)

/-- The ground-truth files skipped with a warning: `.json` entries with no
prediction counterpart. -/
def missingPredFiles (gtFiles predDir : List (String × Option LabelSet)) : List String :=
  ((gtFiles.filter (fun p => extname p.1 == ".json")).filter
    (fun p => (predDir.lookup p.1).isNone)).map (fun p => p.1)

/-- The pairs skipped with a reported error: `.json` entries whose prediction
counterpart exists but where either document fails to parse. -/
def badParseFiles (gtFiles predDir : List (String × Option LabelSet)) : List String :=
  ((gtFiles.filter (fun p => extname p.1 == ".json")).filter (fun p =>
    match predDir.lookup p.1, p.2 with
    | some (some _), some _ => false
    | none, _ => false
    | _, _ => true)).map (fun p => p.1)

/-- The no-skip part of `bestStep`: the strict-improvement update. -/
def innerStep (gtBox : Box) (acc : ℚ × ℤ) (p : ℕ × Label) : ℚ × ℤ :=
  if acc.1 < calculateIoU gtBox p.2.bbox then (calculateIoU gtBox p.2.bbox, (p.1 : ℤ)) else acc

/-- The JavaScript `bestMatchIndex` (initially `-1`) corresponding to an
optional best-candidate index. -/
def encodeIdx : Option ℕ → ℤ
  | none => -1
  | some n => (n : ℤ)

/-- The spec-side list of still-unmatched predicted candidates corresponding
to a code-side matched-indices set. -/
def availBoxes (predBoxes : List Label) (matched : List ℤ) : List (ℕ × Box) :=
  (predBoxes.enum.filter (fun p => ¬ (p.1 : ℤ) ∈ matched)).map (Prod.map id Label.bbox)

/-- Modelled from the spec: a metrics record whose three rates are derived
from its own counts by the guarded formulas of §4.3. -/
def ratesFromCounts (m : TagMetrics) : Prop :=
  m.precision = specPrecision m.true_positives m.false_positives ∧
  m.«recall» = specRecall m.true_positives m.false_negatives ∧
  m.f1_score = specF1 m.precision m.«recall»

lemma interArea_nonneg (A B : Box) : 0 ≤ interArea A B :=
  mul_nonneg (le_max_left _ _) (le_max_left _ _)

lemma interArea_comm (A B : Box) : interArea A B = interArea B A := by
  unfold interArea
  rw [min_comm A.x2 B.x2, max_comm A.x1 B.x1, min_comm A.y2 B.y2, max_comm A.y1 B.y1]

lemma interArea_le_left (A B : Box) (h : 0 < interArea A B) : interArea A B ≤ boxArea A := by
  have hw0 : (0:ℚ) ≤ max 0 (min A.x2 B.x2 - max A.x1 B.x1) := le_max_left _ _
  have hh0 : (0:ℚ) ≤ max 0 (min A.y2 B.y2 - max A.y1 B.y1) := le_max_left _ _
  unfold interArea at h ⊢
  have hw : 0 < max 0 (min A.x2 B.x2 - max A.x1 B.x1) := by
    rcases hw0.lt_or_eq with h1 | h1
    · exact h1
    · rw [← h1] at h; simp at h
  have hh : 0 < max 0 (min A.y2 B.y2 - max A.y1 B.y1) := by
    rcases hh0.lt_or_eq with h1 | h1
    · exact h1
    · rw [← h1] at h; simp at h
  have hwt : 0 < min A.x2 B.x2 - max A.x1 B.x1 := by
    by_contra hc
    push_neg at hc
    rw [max_eq_left hc] at hw
    exact lt_irrefl _ hw
  have hht : 0 < min A.y2 B.y2 - max A.y1 B.y1 := by
    by_contra hc
    push_neg at hc
    rw [max_eq_left hc] at hh
    exact lt_irrefl _ hh
  rw [max_eq_right hwt.le, max_eq_right hht.le]
  have e1 : min A.x2 B.x2 ≤ A.x2 := min_le_left _ _
  have e2 : A.x1 ≤ max A.x1 B.x1 := le_max_left _ _
  have e3 : min A.y2 B.y2 ≤ A.y2 := min_le_left _ _
  have e4 : A.y1 ≤ max A.y1 B.y1 := le_max_left _ _
  unfold boxArea
  apply mul_le_mul
  · linarith
  · linarith
  · linarith
  · linarith

lemma interArea_le_right (A B : Box) (h : 0 < interArea A B) : interArea A B ≤ boxArea B := by
  rw [interArea_comm] at h ⊢
  exact interArea_le_left B A h

lemma unionArea_facts (A B : Box) (h : 0 < interArea A B) :
    interArea A B ≤ unionArea A B ∧ 0 < unionArea A B := by
  have h1 := interArea_le_left A B h
  have h2 := interArea_le_right A B h
  unfold unionArea
  constructor <;> linarith

lemma calculateIoU_mem_unit (A B : Box) : 0 ≤ calculateIoU A B ∧ calculateIoU A B ≤ 1 := by
  unfold calculateIoU
  split
  · simp
  · rcases (interArea_nonneg A B).lt_or_eq with h | h
    · obtain ⟨hle, hpos⟩ := unionArea_facts A B h
      exact ⟨div_nonneg h.le hpos.le, (div_le_one hpos).mpr hle⟩
    · rw [← h, zero_div]
      simp


/-- Claim C2, counterexample: the claim says the IoU function returns exactly
`0`, never an undefined value, whenever the union area is `0`; but the cited
`calculateIoU` of `DataExport.tsx` divides `0 / 0` there, yielding JavaScript
`NaN` (modelled as `none`), as the two zero-area boxes `[0,0,0,0]` show. -/
theorem c2_counterexample :
    unionArea ⟨0, 0, 0, 0⟩ ⟨0, 0, 0, 0⟩ = 0 ∧
    deCalculateIoU ⟨0, 0, 0, 0⟩ ⟨0, 0, 0, 0⟩ = none ∧
    deCalculateIoU ⟨0, 0, 0, 0⟩ ⟨0, 0, 0, 0⟩ ≠ some 0 := by
  have h : deCalculateIoU ⟨0, 0, 0, 0⟩ ⟨0, 0, 0, 0⟩ = none := by
    norm_num [deCalculateIoU, unionArea, boxArea, interArea]
  refine ⟨by norm_num [unionArea, boxArea, interArea], h, by rw [h]; simp⟩

/-- Claim C2 (amended): for every pair of boxes given as 4-tuples of numbers
(no ordering precondition; boxes may be disjoint or degenerate), the batch
script's `calculateIoU` returns a rational in `[0, 1]` and returns exactly `0`
whenever the union area is `0` (including two zero-area boxes); the
interactive export path's `calculateIoU` agrees with it and lies in `[0, 1]`
whenever the union area is nonzero, but yields an undefined value (`NaN`)
when the union area is `0`. -/
theorem c2_iou_range (A B : Box) :
    (0 ≤ calculateIoU A B ∧ calculateIoU A B ≤ 1) ∧
    (unionArea A B = 0 → calculateIoU A B = 0) ∧
    (unionArea A B ≠ 0 → deCalculateIoU A B = some (calculateIoU A B)) ∧
    (unionArea A B = 0 → deCalculateIoU A B = none) := by
  refine ⟨calculateIoU_mem_unit A B, ?_, ?_, ?_⟩
  · intro h
    unfold calculateIoU
    rw [if_pos h]
  · intro h
    unfold deCalculateIoU calculateIoU
    rw [if_neg h, if_neg h]
  · intro h
    unfold deCalculateIoU
    rw [if_pos h]

/-- Claim C2, witness: the amended theorem applied at concrete boxes. -/
theorem c2_witness :
    calculateIoU ⟨0, 0, 0, 0⟩ ⟨0, 0, 0, 0⟩ = 0 ∧
    deCalculateIoU ⟨0, 0, 0, 0⟩ ⟨0, 0, 0, 0⟩ = none ∧
    deCalculateIoU ⟨0, 0, 2, 2⟩ ⟨0, 0, 1, 2⟩ = some (calculateIoU ⟨0, 0, 2, 2⟩ ⟨0, 0, 1, 2⟩) :=
  ⟨(c2_iou_range _ _).2.1 (by norm_num [unionArea, boxArea, interArea]),
   (c2_iou_range _ _).2.2.2 (by norm_num [unionArea, boxArea, interArea]),
   (c2_iou_range _ _).2.2.1 (by norm_num [unionArea, boxArea, interArea])⟩

/-- Claim C7: the prediction-first greedy matcher of the interactive export
path and the ground-truth-first greedy matcher of the batch script are not
equivalent: on the single-category input with ground truths
`[0,0,80,10], [20,0,100,10]` and predictions `[20,0,100,10], [0,0,47,10]`
the batch matcher records 1 true positive while the interactive matcher
records 2. -/
theorem c7_direction_mismatch :
    (matchCategory
        [⟨"Button", ⟨0, 0, 80, 10⟩⟩, ⟨"Button", ⟨20, 0, 100, 10⟩⟩]
        [⟨"Button", ⟨20, 0, 100, 10⟩⟩, ⟨"Button", ⟨0, 0, 47, 10⟩⟩]).truePositives ≠
    (deMatchTag
        [⟨"g1", "Button", ⟨0, 0, 80, 10⟩⟩, ⟨"g2", "Button", ⟨20, 0, 100, 10⟩⟩]
        [⟨"p1", "Button", ⟨20, 0, 100, 10⟩⟩, ⟨"p2", "Button", ⟨0, 0, 47, 10⟩⟩]).1 := by
  have h1 : (matchCategory
      [⟨"Button", ⟨0, 0, 80, 10⟩⟩, ⟨"Button", ⟨20, 0, 100, 10⟩⟩]
      [⟨"Button", ⟨20, 0, 100, 10⟩⟩, ⟨"Button", ⟨0, 0, 47, 10⟩⟩]).truePositives = 1 := by
    norm_num [matchCategory, matchGtBox, bestFor, bestStep, List.enum, List.enumFrom,
      List.foldl, calculateIoU, unionArea, boxArea, interArea, IOU_THRESHOLD]
  have h2 : (deMatchTag
      [⟨"g1", "Button", ⟨0, 0, 80, 10⟩⟩, ⟨"g2", "Button", ⟨20, 0, 100, 10⟩⟩]
      [⟨"p1", "Button", ⟨20, 0, 100, 10⟩⟩, ⟨"p2", "Button", ⟨0, 0, 47, 10⟩⟩]).1 = 2 := by
    norm_num [deMatchTag, deMatchPred, deBestStep, List.foldl, deCalculateIoU,
      unionArea, boxArea, interArea, IOU_THRESHOLD]
    decide
  rw [h1, h2]
  decide

lemma evaluateTag_congr (g₁ p₁ g₂ p₂ : LabelSet) (tag : String)
    (hg : g₁.labels.filter (fun l => l.tag == tag) = g₂.labels.filter (fun l => l.tag == tag))
    (hp : p₁.labels.filter (fun l => l.tag == tag) = p₂.labels.filter (fun l => l.tag == tag)) :
    evaluateTag g₁ p₁ tag = evaluateTag g₂ p₂ tag := by
  unfold evaluateTag
  rw [hg, hp]

lemma filter_insert_of_ne (xs ys : List Label) (l : Label) (tag : String)
    (h : (l.tag == tag) = false) :
    (xs ++ l :: ys).filter (fun x => x.tag == tag) =
      (xs ++ ys).filter (fun x => x.tag == tag) := by
  simp [List.filter_append, List.filter_cons, h]

/-- Claim C10: labels with unrecognized tags are silently ignored by the
batch evaluator: inserting a label whose tag is not one of `UI_TAGS` at any
position of either the ground-truth or the prediction label list leaves the
whole output of `evaluateSingleFile` unchanged; such labels are counted
neither as false positives nor as false negatives. -/
theorem c10_unrecognized_tags_ignored (n₁ n₂ : String)
    (gt₁ gt₂ pred₁ pred₂ : List Label) (l : Label) (h : l.tag ∉ UI_TAGS) :
    (∀ predData, evaluateSingleFile ⟨n₁, gt₁ ++ l :: gt₂⟩ predData =
      evaluateSingleFile ⟨n₁, gt₁ ++ gt₂⟩ predData) ∧
    (∀ gtData, evaluateSingleFile gtData ⟨n₂, pred₁ ++ l :: pred₂⟩ =
      evaluateSingleFile gtData ⟨n₂, pred₁ ++ pred₂⟩) := by
  constructor
  · intro predData
    unfold evaluateSingleFile
    apply List.map_congr_left
    intro tag htag
    have hne : (l.tag == tag) = false :=
      beq_eq_false_iff_ne.mpr (fun he => h (he ▸ htag))
    exact congrArg _ (evaluateTag_congr _ _ _ _ tag
      (filter_insert_of_ne gt₁ gt₂ l tag hne) rfl)
  · intro gtData
    unfold evaluateSingleFile
    apply List.map_congr_left
    intro tag htag
    have hne : (l.tag == tag) = false :=
      beq_eq_false_iff_ne.mpr (fun he => h (he ▸ htag))
    exact congrArg _ (evaluateTag_congr _ _ _ _ tag rfl
      (filter_insert_of_ne pred₁ pred₂ l tag hne))

/-- Claim C10, witness: a `Checkbox` label (not a recognized tag) inserted
into the ground-truth list changes nothing. -/
theorem c10_witness :
    evaluateSingleFile ⟨"img", [⟨"Checkbox", ⟨0, 0, 1, 1⟩⟩]⟩ ⟨"img", []⟩ =
      evaluateSingleFile ⟨"img", []⟩ ⟨"img", []⟩ :=
  (c10_unrecognized_tags_ignored "img" "img" [] [] [] []
    ⟨"Checkbox", ⟨0, 0, 1, 1⟩⟩ (by decide)).1 ⟨"img", []⟩

lemma foldl_skip {α β : Type} (P : α → Prop) [DecidablePred P] (f : β → α → β) :
    ∀ (l : List α) (b : β),
      l.foldl (fun acc x => if P x then acc else f acc x) b =
        (l.filter (fun x => ¬ P x)).foldl f b := by
  intro l
  induction l with
  | nil => intro b; rfl
  | cons x xs ih =>
    intro b
    by_cases h : P x
    · simp [List.foldl_cons, List.filter_cons, h, ih]
    · simp [List.foldl_cons, List.filter_cons, h, ih]

lemma bestStep_eq_skip (matched : List ℤ) (gtBox : Box) :
    bestStep matched gtBox =
      fun acc p => if (p.1 : ℤ) ∈ matched then acc else innerStep gtBox acc p := rfl

lemma best_bisim (g : Box) :
    ∀ (l : List (ℕ × Label)) (q : ℚ) (o : Option ℕ),
      l.foldl (innerStep g) (q, encodeIdx o) =
        (((l.map (Prod.map id Label.bbox)).foldl (specBestStep g) (q, o)).1,
          encodeIdx ((l.map (Prod.map id Label.bbox)).foldl (specBestStep g) (q, o)).2) := by
  intro l
  induction l with
  | nil => intro q o; rfl
  | cons x xs ih =>
    intro q o
    rw [List.foldl_cons, List.map_cons, List.foldl_cons]
    by_cases h : q < calculateIoU g x.2.bbox
    · have hs : specBestStep g (q, o) (Prod.map id Label.bbox x) =
          (calculateIoU g x.2.bbox, some x.1) := by
        unfold specBestStep
        simp [Prod.map, h]
      have hi : innerStep g (q, encodeIdx o) x = (calculateIoU g x.2.bbox, encodeIdx (some x.1)) := by
        unfold innerStep
        simp [h, encodeIdx]
      rw [hs, hi, ih]
    · have hs : specBestStep g (q, o) (Prod.map id Label.bbox x) = (q, o) := by
        unfold specBestStep
        simp [Prod.map, h]
      have hi : innerStep g (q, encodeIdx o) x = (q, encodeIdx o) := by
        unfold innerStep
        simp [h]
      rw [hs, hi, ih]

/-- `bestFor` is the spec-side best-candidate scan over the still-unmatched
enumerated predictions, with the optional index encoded as the JS integer. -/
lemma bestFor_eq_specBest (predBoxes : List Label) (matched : List ℤ) (g : Box) :
    bestFor predBoxes matched g =
      ((specBest g ((predBoxes.enum.filter
          (fun p => ¬ (p.1 : ℤ) ∈ matched)).map (Prod.map id Label.bbox))).1,
        encodeIdx ((specBest g ((predBoxes.enum.filter
          (fun p => ¬ (p.1 : ℤ) ∈ matched)).map (Prod.map id Label.bbox))).2)) := by
  unfold bestFor specBest
  rw [bestStep_eq_skip, foldl_skip (fun p : ℕ × Label => (p.1 : ℤ) ∈ matched)]
  have h0 : ((0 : ℚ), (-1 : ℤ)) = ((0 : ℚ), encodeIdx none) := rfl
  rw [h0, best_bisim]

lemma availBoxes_cons_encode (predBoxes : List Label) (m : List ℤ) (o : Option ℕ) :
    availBoxes predBoxes (encodeIdx o :: m) =
      (availBoxes predBoxes m).filter (fun c => some c.1 ≠ o) := by
  cases o with
  | none =>
    unfold availBoxes
    have h2 : (fun (c : ℕ × Box) => decide (some c.1 ≠ (none : Option ℕ))) =
        fun _ => true := by
      funext c; simp
    rw [h2, List.filter_true]
    apply congrArg
    apply List.filter_congr
    intro p _
    have h3 : ¬ ((p.1 : ℤ) = encodeIdx none) := by simp [encodeIdx]
    simp [List.mem_cons, h3]
  | some j =>
    unfold availBoxes
    rw [List.filter_map, List.filter_filter]
    apply congrArg
    apply List.filter_congr
    intro p _
    have hc : ((fun (c : ℕ × Box) => decide (some c.1 ≠ some j)) ∘ Prod.map id Label.bbox) p =
        decide (¬ p.1 = j) := by simp [Prod.map]
    rw [hc, ← Bool.decide_and, decide_eq_decide]
    simp only [encodeIdx, List.mem_cons, not_or, Int.natCast_inj]

lemma matchGtBox_eq (predBoxes : List Label) (x : Label) (t : ℕ) (m : List ℤ) :
    matchGtBox predBoxes ⟨t, m⟩ x =
      if IOU_THRESHOLD ≤ (specBest x.bbox (availBoxes predBoxes m)).1 then
        (⟨t + 1, encodeIdx (specBest x.bbox (availBoxes predBoxes m)).2 :: m⟩ : MatchState)
      else ⟨t, m⟩ := by
  unfold matchGtBox
  rw [show (⟨t, m⟩ : MatchState).matchedPredIndices = m from rfl,
    bestFor_eq_specBest predBoxes m x.bbox]
  rfl

lemma matchFold_spec (predBoxes : List Label) :
    ∀ (gtL : List Label) (m : List ℤ) (t : ℕ),
      (gtL.foldl (matchGtBox predBoxes) ⟨t, m⟩).truePositives =
        t + specGreedyTPAux (availBoxes predBoxes m) (gtL.map Label.bbox) := by
  intro gtL
  induction gtL with
  | nil => intro m t; simp [specGreedyTPAux]
  | cons x xs ih =>
    intro m t
    rw [List.foldl_cons, List.map_cons, matchGtBox_eq]
    simp only [specGreedyTPAux]
    by_cases hthr : IOU_THRESHOLD ≤ (specBest x.bbox (availBoxes predBoxes m)).1
    · rw [if_pos hthr, if_pos hthr, ih (encodeIdx (specBest x.bbox (availBoxes predBoxes m)).2 :: m)
        (t + 1), availBoxes_cons_encode]
      omega
    · rw [if_neg hthr, if_neg hthr, ih m t]

/-- The code's per-category matcher computes exactly the spec's reference
greedy ground-truth-first true-positive count. -/
lemma matchCategory_eq_specGreedyTP (gtBoxes predBoxes : List Label) :
    (matchCategory gtBoxes predBoxes).truePositives =
      specGreedyTP (gtBoxes.map Label.bbox) (predBoxes.map Label.bbox) := by
  unfold matchCategory specGreedyTP
  rw [matchFold_spec predBoxes gtBoxes [] 0]
  have h1 : availBoxes predBoxes [] = (predBoxes.map Label.bbox).enum := by
    unfold availBoxes
    have h2 : (fun (p : ℕ × Label) => decide (¬ (p.1 : ℤ) ∈ ([] : List ℤ))) =
        fun _ => true := by
      funext p; simp
    rw [h2, List.filter_true, ← List.enum_map]
  rw [h1]
  omega

lemma evaluateTag_true_positives (g p : LabelSet) (tag : String) :
    (evaluateTag g p tag).true_positives =
      ((matchCategory (g.labels.filter (fun l => l.tag == tag))
        (p.labels.filter (fun l => l.tag == tag))).truePositives : ℤ) := rfl

/-- Claim C1: for every image pair and every category of the configured set,
the batch matcher's true-positive count equals the reference greedy
ground-truth-first assignment's count (spec-modelled as `specGreedyTP`:
ground-truth boxes in list order, best not-yet-matched predicted box, strict
improvement only — ties keep the earliest candidate — and a true positive
with the candidate marked used exactly when the best IoU is at least 0.5). -/
theorem c1_matcher_eq_spec_greedy (gtData predData : LabelSet) (tag : String) (m : TagMetrics)
    (h : (tag, m) ∈ evaluateSingleFile gtData predData) :
    m.true_positives =
      ((specGreedyTP ((gtData.labels.filter (fun l => l.tag == tag)).map Label.bbox)
        ((predData.labels.filter (fun l => l.tag == tag)).map Label.bbox) : ℕ) : ℤ) := by
  unfold evaluateSingleFile at h
  rw [List.mem_map] at h
  obtain ⟨tag', _, heq⟩ := h
  rw [Prod.mk.injEq] at heq
  obtain ⟨htag, hm⟩ := heq
  subst htag
  rw [← hm, evaluateTag_true_positives, matchCategory_eq_specGreedyTP]

/-- Claim C1, witness: the theorem applied on a concrete one-box pair (both
sides count one true positive on an exact Button match). -/
theorem c1_witness :
    (evaluateTag ⟨"img", [⟨"Button", ⟨0, 0, 100, 100⟩⟩]⟩
        ⟨"img", [⟨"Button", ⟨0, 0, 100, 100⟩⟩]⟩ "Button").true_positives =
      ((specGreedyTP [⟨0, 0, 100, 100⟩] [⟨0, 0, 100, 100⟩] : ℕ) : ℤ) := by
  have h := c1_matcher_eq_spec_greedy ⟨"img", [⟨"Button", ⟨0, 0, 100, 100⟩⟩]⟩
    ⟨"img", [⟨"Button", ⟨0, 0, 100, 100⟩⟩]⟩ "Button"
    (evaluateTag ⟨"img", [⟨"Button", ⟨0, 0, 100, 100⟩⟩]⟩
      ⟨"img", [⟨"Button", ⟨0, 0, 100, 100⟩⟩]⟩ "Button")
    (by unfold evaluateSingleFile UI_TAGS; simp)
  simpa using h

lemma specBest_isSome (g : Box) :
    ∀ (l : List (ℕ × Box)) (acc : ℚ × Option ℕ), acc.2.isSome →
      ((l.foldl (specBestStep g) acc).2).isSome := by
  intro l
  induction l with
  | nil => intro acc h; exact h
  | cons x xs ih =>
    intro acc h
    rw [List.foldl_cons]
    apply ih
    unfold specBestStep
    split
    · simp
    · exact h

lemma specBest_none_q (g : Box) :
    ∀ (l : List (ℕ × Box)) (q : ℚ), ((l.foldl (specBestStep g) (q, none)).2 = none) →
      (l.foldl (specBestStep g) (q, none)).1 = q := by
  intro l
  induction l with
  | nil => intro q _; rfl
  | cons x xs ih =>
    intro q h
    rw [List.foldl_cons] at h ⊢
    by_cases hc : q < calculateIoU g x.2
    · exfalso
      have h1 : (specBestStep g (q, none) x).2.isSome := by
        unfold specBestStep
        rw [if_pos hc]
        simp
      have h2 := specBest_isSome g xs (specBestStep g (q, none) x) h1
      rw [h] at h2
      simp at h2
    · have h1 : specBestStep g (q, none) x = (q, none) := by
        unfold specBestStep
        rw [if_neg hc]
      rw [h1] at h ⊢
      exact ih q h

lemma specBest_mem (g : Box) :
    ∀ (l : List (ℕ × Box)) (acc : ℚ × Option ℕ) (j : ℕ),
      ((l.foldl (specBestStep g) acc).2 = some j) →
        acc.2 = some j ∨ j ∈ l.map Prod.fst := by
  intro l
  induction l with
  | nil => intro acc j h; exact Or.inl h
  | cons x xs ih =>
    intro acc j h
    rw [List.foldl_cons] at h
    rcases ih (specBestStep g acc x) j h with h1 | h1
    · unfold specBestStep at h1
      split at h1
      · simp at h1
        exact Or.inr (by simp [h1])
      · exact Or.inl h1
    · rw [List.map_cons]
      exact Or.inr (List.mem_cons_of_mem _ h1)

/-- The spec-side greedy count never exceeds the number of available
predicted candidates. -/
lemma specGreedyTPAux_le :
    ∀ (gtBoxes : List Box) (avail : List (ℕ × Box)),
      specGreedyTPAux avail gtBoxes ≤ avail.length := by
  intro gtBoxes
  induction gtBoxes with
  | nil => intro avail; simp [specGreedyTPAux]
  | cons g rest ih =>
    intro avail
    simp only [specGreedyTPAux]
    by_cases hthr : IOU_THRESHOLD ≤ (specBest g avail).1
    · rw [if_pos hthr]
      cases ho : (specBest g avail).2 with
      | none =>
        exfalso
        have h1 : (specBest g avail).1 = 0 := specBest_none_q g avail 0 ho
        rw [h1] at hthr
        norm_num [IOU_THRESHOLD] at hthr
      | some j =>
        have h1 : j ∈ avail.map Prod.fst := by
          rcases specBest_mem g avail (0, none) j ho with h2 | h2
          · simp at h2
          · exact h2
        rw [List.mem_map] at h1
        obtain ⟨c, hc, hcj⟩ := h1
        have h2 : (avail.filter (fun c => some c.1 ≠ some j)).length < avail.length := by
          rw [List.length_filter_lt_length_iff_exists]
          exact ⟨c, hc, by simp [hcj]⟩
        have h3 := ih (avail.filter (fun c => some c.1 ≠ some j))
        omega
    · rw [if_neg hthr]
      exact le_trans (ih avail) (le_refl _)

lemma matchFold_le_gt (predBoxes : List Label) :
    ∀ (gtL : List Label) (st : MatchState),
      (gtL.foldl (matchGtBox predBoxes) st).truePositives ≤ st.truePositives + gtL.length := by
  intro gtL
  induction gtL with
  | nil => intro st; simp
  | cons x xs ih =>
    intro st
    rw [List.foldl_cons]
    have h1 : (matchGtBox predBoxes st x).truePositives ≤ st.truePositives + 1 := by
      dsimp only [matchGtBox]
      split
      · simp
      · simp
    have h2 := ih (matchGtBox predBoxes st x)
    simp only [List.length_cons]
    omega

lemma matchCategory_tp_le (gtBoxes predBoxes : List Label) :
    (matchCategory gtBoxes predBoxes).truePositives ≤ gtBoxes.length ∧
    (matchCategory gtBoxes predBoxes).truePositives ≤ predBoxes.length := by
  constructor
  · have h := matchFold_le_gt predBoxes gtBoxes ⟨0, []⟩
    simpa using h
  · rw [matchCategory_eq_specGreedyTP]
    unfold specGreedyTP
    have h := specGreedyTPAux_le (gtBoxes.map Label.bbox) (predBoxes.map Label.bbox).enum
    simpa using h

lemma deBest_some (matched : List String) (predBox : BoundingBox) :
    ∀ (l : List BoundingBox) (acc : ℚ × Option BoundingBox) (g : BoundingBox),
      ((l.foldl (deBestStep matched predBox) acc).2 = some g) →
        acc.2 = some g ∨ (g ∈ l ∧ ¬ g.id ∈ matched) := by
  intro l
  induction l with
  | nil => intro acc g h; exact Or.inl h
  | cons x xs ih =>
    intro acc g h
    rw [List.foldl_cons] at h
    rcases ih (deBestStep matched predBox acc x) g h with h1 | h1
    · unfold deBestStep at h1
      split at h1
      · exact Or.inl h1
      · rename_i hx
        split at h1
        · exact Or.inl h1
        · split at h1
          · simp at h1
            exact Or.inr ⟨by simp [← h1], by rw [← h1]; exact hx⟩
          · exact Or.inl h1
    · exact Or.inr ⟨List.mem_cons_of_mem _ h1.1, h1.2⟩

lemma deMatchPred_eq (gtBoxes : List BoundingBox) (st : ℕ × List String)
    (predBox : BoundingBox) :
    deMatchPred gtBoxes st predBox =
      match (gtBoxes.foldl (deBestStep st.2 predBox) (0, none)).2 with
      | some g => (st.1 + 1, g.id :: st.2)
      | none => st := rfl

lemma deFold_le_gt (gtBoxes : List BoundingBox) :
    ∀ (preds : List BoundingBox) (st : ℕ × List String),
      (preds.foldl (deMatchPred gtBoxes) st).1 ≤
        st.1 + (gtBoxes.filter (fun g => ¬ g.id ∈ st.2)).length := by
  intro preds
  induction preds with
  | nil => intro st; simp
  | cons p ps ih =>
    intro st
    rw [List.foldl_cons, deMatchPred_eq]
    cases hb : (gtBoxes.foldl (deBestStep st.2 p) (0, none)).2 with
    | none =>
      exact ih st
    | some g =>
      dsimp only
      have hg : g ∈ gtBoxes ∧ ¬ g.id ∈ st.2 := by
        rcases deBest_some st.2 p gtBoxes (0, none) g hb with h1 | h1
        · simp at h1
        · exact h1
      have hlen : (gtBoxes.filter (fun x => ¬ x.id ∈ g.id :: st.2)).length <
          (gtBoxes.filter (fun x => ¬ x.id ∈ st.2)).length := by
        have he : gtBoxes.filter (fun x => ¬ x.id ∈ g.id :: st.2) =
            (gtBoxes.filter (fun x => ¬ x.id = g.id)).filter (fun x => ¬ x.id ∈ st.2) := by
          rw [List.filter_filter]
          apply List.filter_congr
          intro x _
          rw [← Bool.decide_and, decide_eq_decide]
          simp only [List.mem_cons, not_or]
          tauto
        rw [he, List.filter_comm, List.length_filter_lt_length_iff_exists]
        refine ⟨g, ?_, by simp⟩
        rw [List.mem_filter]
        exact ⟨hg.1, by simpa using hg.2⟩
      have h2 := ih (st.1 + 1, g.id :: st.2)
      simp only at h2
      omega

lemma deMatchTag_le (gtBoxes predBoxes : List BoundingBox) :
    (deMatchTag gtBoxes predBoxes).1 ≤ gtBoxes.length ∧
    (deMatchTag gtBoxes predBoxes).1 ≤ predBoxes.length := by
  constructor
  · have h := deFold_le_gt gtBoxes predBoxes (0, [])
    unfold deMatchTag
    refine le_trans h ?_
    simp only [Nat.zero_add]
    have h3 : gtBoxes.filter (fun g => ¬ g.id ∈ ([] : List String)) = gtBoxes := by
      have h2 : (fun (g : BoundingBox) => decide (¬ g.id ∈ ([] : List String))) =
          fun _ => true := by
        funext g; simp
      rw [h2, List.filter_true]
    rw [h3]
  · unfold deMatchTag
    have key : ∀ (ps : List BoundingBox) (st : ℕ × List String),
        (ps.foldl (deMatchPred gtBoxes) st).1 ≤ st.1 + ps.length := by
      intro ps
      induction ps with
      | nil => intro st; simp
      | cons q qs ih =>
        intro st
        rw [List.foldl_cons]
        have h1 : (deMatchPred gtBoxes st q).1 ≤ st.1 + 1 := by
          rw [deMatchPred_eq]
          cases hb : (gtBoxes.foldl (deBestStep st.2 q) (0, none)).2 with
          | none => simp
          | some g => simp
        have h2 := ih (deMatchPred gtBoxes st q)
        simp only [List.length_cons]
        omega
    have h := key predBoxes (0, [])
    simpa using h

lemma evaluateTag_counts (g p : LabelSet) (tag : String) :
    (evaluateTag g p tag).ground_truth_count =
      (evaluateTag g p tag).true_positives + (evaluateTag g p tag).false_negatives ∧
    (evaluateTag g p tag).predicted_count =
      (evaluateTag g p tag).true_positives + (evaluateTag g p tag).false_positives ∧
    (evaluateTag g p tag).true_positives ≤
      min (evaluateTag g p tag).ground_truth_count (evaluateTag g p tag).predicted_count := by
  have hle := matchCategory_tp_le (g.labels.filter (fun l => l.tag == tag))
    (p.labels.filter (fun l => l.tag == tag))
  unfold evaluateTag
  dsimp only
  refine ⟨by ring, by ring, ?_⟩
  omega

lemma deTagMetrics_counts (gtBoxes predBoxes : List BoundingBox) :
    (deTagMetrics gtBoxes predBoxes).ground_truth_count =
      (deTagMetrics gtBoxes predBoxes).true_positives +
        (deTagMetrics gtBoxes predBoxes).false_negatives ∧
    (deTagMetrics gtBoxes predBoxes).predicted_count =
      (deTagMetrics gtBoxes predBoxes).true_positives +
        (deTagMetrics gtBoxes predBoxes).false_positives ∧
    (deTagMetrics gtBoxes predBoxes).true_positives ≤
      min (deTagMetrics gtBoxes predBoxes).ground_truth_count
        (deTagMetrics gtBoxes predBoxes).predicted_count := by
  have hle := deMatchTag_le gtBoxes predBoxes
  unfold deTagMetrics
  dsimp only
  refine ⟨by ring, by ring, ?_⟩
  omega

/-- Claim C3: for every input pair and every category, the match outcome
satisfies `ground_truth_count = TP + FN`, `predicted_count = TP + FP` and
`TP ≤ min(ground_truth_count, predicted_count)` — both for the batch
matcher's per-tag records and for the interactive export path's per-tag
records. -/
theorem c3_count_invariants :
    (∀ (gtData predData : LabelSet) (tag : String) (m : TagMetrics),
      (tag, m) ∈ evaluateSingleFile gtData predData →
        m.ground_truth_count = m.true_positives + m.false_negatives ∧
        m.predicted_count = m.true_positives + m.false_positives ∧
        m.true_positives ≤ min m.ground_truth_count m.predicted_count) ∧
    (∀ (manualLabels predictedLabels : List BoundingBox) (tag : String) (m : TagMetrics),
      (tag, m) ∈ deSummary manualLabels predictedLabels →
        m.ground_truth_count = m.true_positives + m.false_negatives ∧
        m.predicted_count = m.true_positives + m.false_positives ∧
        m.true_positives ≤ min m.ground_truth_count m.predicted_count) := by
  constructor
  · intro gtData predData tag m h
    unfold evaluateSingleFile at h
    rw [List.mem_map] at h
    obtain ⟨tag', _, heq⟩ := h
    rw [Prod.mk.injEq] at heq
    obtain ⟨htag, hm⟩ := heq
    subst htag
    rw [← hm]
    exact evaluateTag_counts gtData predData tag'
  · intro manualLabels predictedLabels tag m h
    unfold deSummary at h
    rw [List.mem_map] at h
    obtain ⟨tag', _, heq⟩ := h
    rw [Prod.mk.injEq] at heq
    obtain ⟨htag, hm⟩ := heq
    subst htag
    rw [← hm]
    exact deTagMetrics_counts _ _

/-- Claim C3, witness: the invariants applied to the `Button` record of a
concrete evaluation. -/
theorem c3_witness :
    (evaluateTag ⟨"i", []⟩ ⟨"i", []⟩ "Button").ground_truth_count =
      (evaluateTag ⟨"i", []⟩ ⟨"i", []⟩ "Button").true_positives +
        (evaluateTag ⟨"i", []⟩ ⟨"i", []⟩ "Button").false_negatives ∧
    (evaluateTag ⟨"i", []⟩ ⟨"i", []⟩ "Button").predicted_count =
      (evaluateTag ⟨"i", []⟩ ⟨"i", []⟩ "Button").true_positives +
        (evaluateTag ⟨"i", []⟩ ⟨"i", []⟩ "Button").false_positives ∧
    (evaluateTag ⟨"i", []⟩ ⟨"i", []⟩ "Button").true_positives ≤
      min (evaluateTag ⟨"i", []⟩ ⟨"i", []⟩ "Button").ground_truth_count
        (evaluateTag ⟨"i", []⟩ ⟨"i", []⟩ "Button").predicted_count :=
  c3_count_invariants.1 ⟨"i", []⟩ ⟨"i", []⟩ "Button" _
    (by unfold evaluateSingleFile UI_TAGS; simp)

lemma evaluateTag_rates (g p : LabelSet) (tag : String) :
    ratesFromCounts (evaluateTag g p tag) := by
  unfold ratesFromCounts evaluateTag specPrecision specRecall specF1
  dsimp only
  exact ⟨rfl, rfl, rfl⟩

lemma withRates_rates (s : TagStats) : ratesFromCounts (withRates s) := by
  unfold ratesFromCounts withRates specPrecision specRecall specF1
  dsimp only
  exact ⟨rfl, rfl, rfl⟩

lemma aggregateResults_mem (ms : List (List (String × TagMetrics))) (tag : String)
    (m : TagMetrics) (h : (tag, m) ∈ aggregateResults ms) : ∃ s, m = withRates s := by
  unfold aggregateResults at h
  rw [List.mem_append] at h
  rcases h with h | h
  · rw [List.mem_map] at h
    obtain ⟨tag', _, heq⟩ := h
    rw [Prod.mk.injEq] at heq
    exact ⟨_, heq.2.symm⟩
  · rw [List.mem_singleton, Prod.mk.injEq] at h
    exact ⟨_, h.2⟩

lemma dePrecision_eq_spec (tp fp : ℤ) (h1 : 0 ≤ tp) (h2 : 0 ≤ fp) :
    dePrecision tp fp = specPrecision tp fp := by
  unfold dePrecision specPrecision
  by_cases h : 0 < tp
  · rw [if_pos h, if_pos (by omega)]
  · have htp : tp = 0 := by omega
    subst htp
    rw [if_neg h]
    by_cases h3 : (0 : ℤ) < 0 + fp
    · rw [if_pos h3]
      simp
    · rw [if_neg h3]

lemma deRecall_eq_spec (tp fn : ℤ) (h1 : 0 ≤ tp) (h2 : 0 ≤ fn) :
    deRecall tp fn = specRecall tp fn := by
  unfold deRecall specRecall
  by_cases h : 0 < tp
  · rw [if_pos h, if_pos (by omega)]
  · have htp : tp = 0 := by omega
    subst htp
    rw [if_neg h]
    by_cases h3 : (0 : ℤ) < 0 + fn
    · rw [if_pos h3]
      simp
    · rw [if_neg h3]

lemma deF1_eq_spec (p r : ℚ) : deF1 p r = specF1 p r := by
  unfold deF1 specF1
  by_cases h : 0 < p + r
  · rw [if_pos h, if_pos h, mul_assoc]
  · rw [if_neg h, if_neg h]

/-- Claim C4: every computed metrics entry derives its rates by the guarded
spec formulas — the batch per-image records, every batch aggregate record
(per-tag and `Overall`), and the interactive path's computed (pre-rounding)
rates; in particular the guards make all three rates `0` whenever both label
sets of a category are empty. -/
theorem c4_rate_formulas :
    (∀ (gtData predData : LabelSet) (tag : String) (m : TagMetrics),
      (tag, m) ∈ evaluateSingleFile gtData predData → ratesFromCounts m) ∧
    (∀ (ms : List (List (String × TagMetrics))) (tag : String) (m : TagMetrics),
      (tag, m) ∈ aggregateResults ms → ratesFromCounts m) ∧
    (∀ (gtBoxes predBoxes : List BoundingBox),
      dePrecision ((deMatchTag gtBoxes predBoxes).1 : ℤ)
          ((predBoxes.length : ℤ) - ((deMatchTag gtBoxes predBoxes).1 : ℤ)) =
        specPrecision ((deMatchTag gtBoxes predBoxes).1 : ℤ)
          ((predBoxes.length : ℤ) - ((deMatchTag gtBoxes predBoxes).1 : ℤ)) ∧
      deRecall ((deMatchTag gtBoxes predBoxes).1 : ℤ)
          ((gtBoxes.length : ℤ) - ((deMatchTag gtBoxes predBoxes).1 : ℤ)) =
        specRecall ((deMatchTag gtBoxes predBoxes).1 : ℤ)
          ((gtBoxes.length : ℤ) - ((deMatchTag gtBoxes predBoxes).1 : ℤ)) ∧
      ∀ (p r : ℚ), deF1 p r = specF1 p r) ∧
    (∀ (gtData predData : LabelSet) (tag : String) (m : TagMetrics),
      (tag, m) ∈ evaluateSingleFile gtData predData →
        m.ground_truth_count = 0 → m.predicted_count = 0 →
          m.precision = 0 ∧ m.«recall» = 0 ∧ m.f1_score = 0) := by
  have hmem : ∀ (gtData predData : LabelSet) (tag : String) (m : TagMetrics),
      (tag, m) ∈ evaluateSingleFile gtData predData →
        m = evaluateTag gtData predData tag := by
    intro gtData predData tag m h
    unfold evaluateSingleFile at h
    rw [List.mem_map] at h
    obtain ⟨tag', _, heq⟩ := h
    rw [Prod.mk.injEq] at heq
    obtain ⟨htag, hm⟩ := heq
    subst htag
    exact hm.symm
  refine ⟨?_, ?_, ?_, ?_⟩
  · intro gtData predData tag m h
    rw [hmem gtData predData tag m h]
    exact evaluateTag_rates gtData predData tag
  · intro ms tag m h
    obtain ⟨s, hs⟩ := aggregateResults_mem ms tag m h
    rw [hs]
    exact withRates_rates s
  · intro gtBoxes predBoxes
    have hb := deMatchTag_le gtBoxes predBoxes
    refine ⟨dePrecision_eq_spec _ _ (by omega) (by omega),
      deRecall_eq_spec _ _ (by omega) (by omega), deF1_eq_spec⟩
  · intro gtData predData tag m h hgt hpred
    have hm := hmem gtData predData tag m h
    have hr := evaluateTag_rates gtData predData tag
    rw [← hm] at hr
    have hc := c3_count_invariants.1 gtData predData tag m h
    have htp0 : m.true_positives = 0 := by
      have h0 : 0 ≤ m.true_positives := by
        rw [hm, evaluateTag_true_positives]
        omega
      have h1 := hc.2.2
      rw [hgt, hpred] at h1
      omega
    have hfp0 : m.false_positives = 0 := by
      have := hc.2.1
      omega
    have hfn0 : m.false_negatives = 0 := by
      have := hc.1
      omega
    obtain ⟨hp, hr2, hf⟩ := hr
    rw [htp0, hfp0] at hp
    rw [htp0, hfn0] at hr2
    have hp0 : m.precision = 0 := by
      rw [hp]
      unfold specPrecision
      norm_num
    have hr0 : m.«recall» = 0 := by
      rw [hr2]
      unfold specRecall
      norm_num
    refine ⟨hp0, hr0, ?_⟩
    rw [hf, hp0, hr0]
    unfold specF1
    norm_num

/-- Claim C4, witness: the formulas and the empty-input zeros at a concrete
empty pair. -/
theorem c4_witness :
    ratesFromCounts (evaluateTag ⟨"i", []⟩ ⟨"i", []⟩ "Button") ∧
    (evaluateTag ⟨"i", []⟩ ⟨"i", []⟩ "Button").precision = 0 ∧
    (evaluateTag ⟨"i", []⟩ ⟨"i", []⟩ "Button").«recall» = 0 ∧
    (evaluateTag ⟨"i", []⟩ ⟨"i", []⟩ "Button").f1_score = 0 := by
  have hmem : ("Button", evaluateTag ⟨"i", []⟩ ⟨"i", []⟩ "Button") ∈
      evaluateSingleFile ⟨"i", []⟩ ⟨"i", []⟩ := by
    unfold evaluateSingleFile UI_TAGS
    simp
  exact ⟨c4_rate_formulas.1 _ _ "Button" _ hmem,
    c4_rate_formulas.2.2.2 ⟨"i", []⟩ ⟨"i", []⟩ "Button" _ hmem rfl rfl⟩

lemma statsStep_comm (tag : String) (acc : TagStats)
    (fm1 fm2 : List (String × TagMetrics)) :
    statsStep tag (statsStep tag acc fm1) fm2 = statsStep tag (statsStep tag acc fm2) fm1 := by
  unfold statsStep
  cases h1 : fm1.lookup tag <;> cases h2 : fm2.lookup tag <;>
    (simp only [addStats, TagStats.mk.injEq]; try omega)

/-- Claim C6: the aggregator is order-independent — folding any permutation
of the per-image match outcomes produces an identical aggregate report
(all counts and all derived rates). -/
theorem c6_aggregate_perm_invariant (l1 l2 : List (List (String × TagMetrics)))
    (h : l1.Perm l2) : aggregateResults l1 = aggregateResults l2 := by
  unfold aggregateResults
  have hmap : UI_TAGS.map (fun tag => (tag, withRates (l1.foldl (statsStep tag) ⟨0, 0, 0, 0, 0⟩)))
      = UI_TAGS.map (fun tag => (tag, withRates (l2.foldl (statsStep tag) ⟨0, 0, 0, 0, 0⟩))) := by
    apply List.map_congr_left
    intro tag _
    have hfold := h.foldl_eq' (fun x _ y _ z => statsStep_comm tag z x y)
      (⟨0, 0, 0, 0, 0⟩ : TagStats)
    rw [hfold]
  rw [hmap]

/-- Claim C6, witness: swapping two concrete per-image outcomes leaves the
aggregate unchanged. -/
theorem c6_witness :
    aggregateResults [[("Button", withRates ⟨1, 0, 2, 3, 1⟩)], []] =
      aggregateResults [[], [("Button", withRates ⟨1, 0, 2, 3, 1⟩)]] :=
  c6_aggregate_perm_invariant _ _
    (List.Perm.swap ([] : List (String × TagMetrics)) [("Button", withRates ⟨1, 0, 2, 3, 1⟩)] [])

lemma withRates_counts (s : TagStats) :
    (withRates s).true_positives = s.true_positives ∧
    (withRates s).false_positives = s.false_positives ∧
    (withRates s).false_negatives = s.false_negatives ∧
    (withRates s).ground_truth_count = s.ground_truth_count ∧
    (withRates s).predicted_count = s.predicted_count := by
  unfold withRates
  exact ⟨rfl, rfl, rfl, rfl, rfl⟩

lemma aggregateResults_overall (ms : List (List (String × TagMetrics))) :
    ∃ mB mI mR mD mo : TagMetrics,
      aggregateResults ms =
        [("Button", mB), ("Input", mI), ("Radio", mR), ("Dropdown", mD), ("Overall", mo)] ∧
      mo.true_positives = mB.true_positives + mI.true_positives +
        mR.true_positives + mD.true_positives ∧
      mo.false_positives = mB.false_positives + mI.false_positives +
        mR.false_positives + mD.false_positives ∧
      mo.false_negatives = mB.false_negatives + mI.false_negatives +
        mR.false_negatives + mD.false_negatives ∧
      mo.ground_truth_count = mB.ground_truth_count + mI.ground_truth_count +
        mR.ground_truth_count + mD.ground_truth_count ∧
      mo.predicted_count = mB.predicted_count + mI.predicted_count +
        mR.predicted_count + mD.predicted_count ∧
      ratesFromCounts mo := by
  unfold aggregateResults UI_TAGS
  simp only [List.map_cons, List.map_nil, List.foldl_cons, List.foldl_nil, List.cons_append,
    List.nil_append]
  refine ⟨_, _, _, _, _, rfl, ?_, ?_, ?_, ?_, ?_, withRates_rates _⟩ <;>
    simp [addStats, withRates]

lemma deTagMetrics_nonneg (g p : List BoundingBox) :
    0 ≤ (deTagMetrics g p).true_positives ∧ 0 ≤ (deTagMetrics g p).false_positives ∧
    0 ≤ (deTagMetrics g p).false_negatives := by
  have h := deMatchTag_le g p
  unfold deTagMetrics
  dsimp only
  omega

lemma dataExport_overall (manualLabels predictedLabels : List BoundingBox)
    (r : List (String × TagMetrics))
    (h : dataExportEvaluation manualLabels predictedLabels = some r) :
    ∃ mB mI mR mD mo : TagMetrics,
      r = [("Button", mB), ("Input", mI), ("Radio", mR), ("Dropdown", mD), ("overall", mo)] ∧
      mo.true_positives = mB.true_positives + mI.true_positives +
        mR.true_positives + mD.true_positives ∧
      mo.false_positives = mB.false_positives + mI.false_positives +
        mR.false_positives + mD.false_positives ∧
      mo.false_negatives = mB.false_negatives + mI.false_negatives +
        mR.false_negatives + mD.false_negatives ∧
      mo.ground_truth_count = (manualLabels.length : ℤ) ∧
      mo.predicted_count = (predictedLabels.length : ℤ) ∧
      mo.precision = round3 (specPrecision mo.true_positives mo.false_positives) ∧
      mo.«recall» = round3 (specRecall mo.true_positives mo.false_negatives) ∧
      mo.f1_score = round3 (specF1 (specPrecision mo.true_positives mo.false_positives)
        (specRecall mo.true_positives mo.false_negatives)) := by
  unfold dataExportEvaluation at h
  split at h
  · simp at h
  · rw [Option.some_inj] at h
    subst h
    refine ⟨deTagMetrics (manualLabels.filter (fun l => l.tag == "Button"))
        (predictedLabels.filter (fun l => l.tag == "Button")),
      deTagMetrics (manualLabels.filter (fun l => l.tag == "Input"))
        (predictedLabels.filter (fun l => l.tag == "Input")),
      deTagMetrics (manualLabels.filter (fun l => l.tag == "Radio"))
        (predictedLabels.filter (fun l => l.tag == "Radio")),
      deTagMetrics (manualLabels.filter (fun l => l.tag == "Dropdown"))
        (predictedLabels.filter (fun l => l.tag == "Dropdown")),
      deOverallEntry manualLabels predictedLabels, ?_, ?_, ?_, ?_, ?_, ?_,
      ?_, ?_, ?_⟩
    · unfold deSummary UI_TAGS
      simp only [List.map_cons, List.map_nil, List.cons_append, List.nil_append]
    all_goals
      unfold deOverallEntry deSummary UI_TAGS
      simp only [List.map_cons, List.map_nil, List.foldl_cons, List.foldl_nil]
    · omega
    · omega
    · omega
    · have h1 := deTagMetrics_nonneg (manualLabels.filter (fun l => l.tag == "Button"))
        (predictedLabels.filter (fun l => l.tag == "Button"))
      have h2 := deTagMetrics_nonneg (manualLabels.filter (fun l => l.tag == "Input"))
        (predictedLabels.filter (fun l => l.tag == "Input"))
      have h3 := deTagMetrics_nonneg (manualLabels.filter (fun l => l.tag == "Radio"))
        (predictedLabels.filter (fun l => l.tag == "Radio"))
      have h4 := deTagMetrics_nonneg (manualLabels.filter (fun l => l.tag == "Dropdown"))
        (predictedLabels.filter (fun l => l.tag == "Dropdown"))
      rw [dePrecision_eq_spec _ _ (by omega) (by omega)]
    · have h1 := deTagMetrics_nonneg (manualLabels.filter (fun l => l.tag == "Button"))
        (predictedLabels.filter (fun l => l.tag == "Button"))
      have h2 := deTagMetrics_nonneg (manualLabels.filter (fun l => l.tag == "Input"))
        (predictedLabels.filter (fun l => l.tag == "Input"))
      have h3 := deTagMetrics_nonneg (manualLabels.filter (fun l => l.tag == "Radio"))
        (predictedLabels.filter (fun l => l.tag == "Radio"))
      have h4 := deTagMetrics_nonneg (manualLabels.filter (fun l => l.tag == "Dropdown"))
        (predictedLabels.filter (fun l => l.tag == "Dropdown"))
      rw [deRecall_eq_spec _ _ (by omega) (by omega)]
    · have h1 := deTagMetrics_nonneg (manualLabels.filter (fun l => l.tag == "Button"))
        (predictedLabels.filter (fun l => l.tag == "Button"))
      have h2 := deTagMetrics_nonneg (manualLabels.filter (fun l => l.tag == "Input"))
        (predictedLabels.filter (fun l => l.tag == "Input"))
      have h3 := deTagMetrics_nonneg (manualLabels.filter (fun l => l.tag == "Radio"))
        (predictedLabels.filter (fun l => l.tag == "Radio"))
      have h4 := deTagMetrics_nonneg (manualLabels.filter (fun l => l.tag == "Dropdown"))
        (predictedLabels.filter (fun l => l.tag == "Dropdown"))
      rw [deF1_eq_spec, dePrecision_eq_spec _ _ (by omega) (by omega),
        deRecall_eq_spec _ _ (by omega) (by omega)]

/-- Claim C5, counterexample: the interactive export path produces a report
whose `overall.ground_truth_count` is the length of the whole manual label
list (here `1`, from a label with the unrecognized tag `Other`), while the
per-category ground-truth counts over the fixed category set sum to `0`. -/
theorem c5_counterexample :
    dataExportEvaluation [⟨"a", "Other", ⟨0, 0, 1, 1⟩⟩] [⟨"b", "Button", ⟨0, 0, 1, 1⟩⟩] =
      some (deSummary [⟨"a", "Other", ⟨0, 0, 1, 1⟩⟩] [⟨"b", "Button", ⟨0, 0, 1, 1⟩⟩] ++
        [("overall", deOverallEntry [⟨"a", "Other", ⟨0, 0, 1, 1⟩⟩]
          [⟨"b", "Button", ⟨0, 0, 1, 1⟩⟩])]) ∧
    (deOverallEntry [⟨"a", "Other", ⟨0, 0, 1, 1⟩⟩]
      [⟨"b", "Button", ⟨0, 0, 1, 1⟩⟩]).ground_truth_count = 1 ∧
    ((deSummary [⟨"a", "Other", ⟨0, 0, 1, 1⟩⟩] [⟨"b", "Button", ⟨0, 0, 1, 1⟩⟩]).map
      (fun p => p.2.ground_truth_count)).sum = 0 ∧
    (1 : ℤ) ≠ 0 := by
  have e1 : (("Other" : String) == "Button") = false := by decide
  have e2 : (("Other" : String) == "Input") = false := by decide
  have e3 : (("Other" : String) == "Radio") = false := by decide
  have e4 : (("Other" : String) == "Dropdown") = false := by decide
  refine ⟨by simp [dataExportEvaluation], rfl, ?_, by decide⟩
  simp only [deSummary, UI_TAGS, List.map_cons, List.map_nil, List.filter_cons, List.filter_nil,
    e1, e2, e3, e4]
  norm_num [deTagMetrics]

/-- Claim C5 (amended): in every batch aggregate report the `Overall` entry's
five counts equal the sums of the per-category counts over the fixed category
set and its rates are recomputed from those summed counts; in every
interactive export report the `overall` entry's TP/FP/FN equal the sums of
the per-category values and its rates are recomputed (then rounded) from
those summed counts, but its ground-truth and predicted counts are the
lengths of the whole label lists, which exceed the per-category sums when
labels with unrecognized tags are present. -/
theorem c5_overall_recomputed :
    (∀ ms : List (List (String × TagMetrics)),
      ∃ mB mI mR mD mo : TagMetrics,
        aggregateResults ms =
          [("Button", mB), ("Input", mI), ("Radio", mR), ("Dropdown", mD), ("Overall", mo)] ∧
        mo.true_positives = mB.true_positives + mI.true_positives +
          mR.true_positives + mD.true_positives ∧
        mo.false_positives = mB.false_positives + mI.false_positives +
          mR.false_positives + mD.false_positives ∧
        mo.false_negatives = mB.false_negatives + mI.false_negatives +
          mR.false_negatives + mD.false_negatives ∧
        mo.ground_truth_count = mB.ground_truth_count + mI.ground_truth_count +
          mR.ground_truth_count + mD.ground_truth_count ∧
        mo.predicted_count = mB.predicted_count + mI.predicted_count +
          mR.predicted_count + mD.predicted_count ∧
        ratesFromCounts mo) ∧
    (∀ (manualLabels predictedLabels : List BoundingBox) (r : List (String × TagMetrics)),
      dataExportEvaluation manualLabels predictedLabels = some r →
        ∃ mB mI mR mD mo : TagMetrics,
          r = [("Button", mB), ("Input", mI), ("Radio", mR), ("Dropdown", mD), ("overall", mo)] ∧
          mo.true_positives = mB.true_positives + mI.true_positives +
            mR.true_positives + mD.true_positives ∧
          mo.false_positives = mB.false_positives + mI.false_positives +
            mR.false_positives + mD.false_positives ∧
          mo.false_negatives = mB.false_negatives + mI.false_negatives +
            mR.false_negatives + mD.false_negatives ∧
          mo.ground_truth_count = (manualLabels.length : ℤ) ∧
          mo.predicted_count = (predictedLabels.length : ℤ) ∧
          mo.precision = round3 (specPrecision mo.true_positives mo.false_positives) ∧
          mo.«recall» = round3 (specRecall mo.true_positives mo.false_negatives) ∧
          mo.f1_score = round3 (specF1 (specPrecision mo.true_positives mo.false_positives)
            (specRecall mo.true_positives mo.false_negatives))) :=
  ⟨aggregateResults_overall, dataExport_overall⟩

/-- Claim C5, witness: the amended theorem's interactive part applied to a
concrete nonempty pair. -/
theorem c5_witness :
    ∃ mB mI mR mD mo : TagMetrics,
      deSummary [⟨"a", "Button", ⟨0, 0, 2, 2⟩⟩] [⟨"a", "Button", ⟨0, 0, 2, 2⟩⟩] ++
          [("overall", deOverallEntry [⟨"a", "Button", ⟨0, 0, 2, 2⟩⟩]
            [⟨"a", "Button", ⟨0, 0, 2, 2⟩⟩])] =
        [("Button", mB), ("Input", mI), ("Radio", mR), ("Dropdown", mD), ("overall", mo)] ∧
      mo.true_positives = mB.true_positives + mI.true_positives +
        mR.true_positives + mD.true_positives ∧
      mo.false_positives = mB.false_positives + mI.false_positives +
        mR.false_positives + mD.false_positives ∧
      mo.false_negatives = mB.false_negatives + mI.false_negatives +
        mR.false_negatives + mD.false_negatives ∧
      mo.ground_truth_count = (([⟨"a", "Button", ⟨0, 0, 2, 2⟩⟩] : List BoundingBox).length : ℤ) ∧
      mo.predicted_count = (([⟨"a", "Button", ⟨0, 0, 2, 2⟩⟩] : List BoundingBox).length : ℤ) ∧
      mo.precision = round3 (specPrecision mo.true_positives mo.false_positives) ∧
      mo.«recall» = round3 (specRecall mo.true_positives mo.false_negatives) ∧
      mo.f1_score = round3 (specF1 (specPrecision mo.true_positives mo.false_positives)
        (specRecall mo.true_positives mo.false_negatives)) :=
  c5_overall_recomputed.2 [⟨"a", "Button", ⟨0, 0, 2, 2⟩⟩] [⟨"a", "Button", ⟨0, 0, 2, 2⟩⟩] _
    (by simp [dataExportEvaluation])

lemma processPair_metricsOf (predDir : List (String × Option LabelSet))
    (p : String × Option LabelSet) :
    (processPair predDir p.1 p.2).metricsOf =
      match predDir.lookup p.1, p.2 with
      | some (some predData), some gtData => some (evaluateSingleFile gtData predData)
      | _, _ => none := by
  unfold processPair
  cases hl : predDir.lookup p.1 with
  | none => rfl
  | some predDoc => cases predDoc <;> cases hp : p.2 <;> rfl

lemma processPair_isMissing (predDir : List (String × Option LabelSet))
    (p : String × Option LabelSet) :
    (processPair predDir p.1 p.2).isMissingPred = (predDir.lookup p.1).isNone := by
  unfold processPair
  cases hl : predDir.lookup p.1 with
  | none => rfl
  | some predDoc => cases predDoc <;> cases hp : p.2 <;> rfl

lemma processPair_isError (predDir : List (String × Option LabelSet))
    (p : String × Option LabelSet) :
    (processPair predDir p.1 p.2).isParseError =
      (match predDir.lookup p.1, p.2 with
        | some (some _), some _ => false
        | none, _ => false
        | _, _ => true) := by
  unfold processPair
  cases hl : predDir.lookup p.1 with
  | none => rfl
  | some predDoc => cases predDoc <;> cases hp : p.2 <;> rfl

/-- The batch run with a readable ground-truth directory, characterized by
the spec-side per-pair outcome classification. -/
lemma mainModel_ok_eq (args : List String)
    (gtFiles predDir : List (String × Option LabelSet)) (h : args.length = 2) :
    mainModel args (.ok gtFiles) predDir =
      if loadedPairs gtFiles predDir = [] then
        ⟨0, false, false, true, missingPredFiles gtFiles predDir,
          badParseFiles gtFiles predDir, none⟩
      else
        ⟨0, false, false, false, missingPredFiles gtFiles predDir,
          badParseFiles gtFiles predDir,
          some (aggregateResults (loadedPairs gtFiles predDir))⟩ := by
  unfold mainModel
  rw [if_neg (by omega)]
  dsimp only
  have h1 : ((gtFiles.filter (fun p => extname p.1 == ".json")).map
        (fun p => (p.1, processPair predDir p.1 p.2))).filterMap (fun o => o.2.metricsOf) =
      loadedPairs gtFiles predDir := by
    unfold loadedPairs
    rw [List.filterMap_map]
    apply List.filterMap_congr
    intro p _
    exact processPair_metricsOf predDir p
  have h2 : (((gtFiles.filter (fun p => extname p.1 == ".json")).map
        (fun p => (p.1, processPair predDir p.1 p.2))).filter
          (fun o => o.2.isMissingPred)).map (fun o => o.1) =
      missingPredFiles gtFiles predDir := by
    unfold missingPredFiles
    rw [List.filter_map, List.map_map]
    have hf : List.filter ((fun (o : String × PairOutcome) => o.2.isMissingPred) ∘
          fun p => (p.1, processPair predDir p.1 p.2))
        (gtFiles.filter (fun p => extname p.1 == ".json")) =
        (gtFiles.filter (fun p => extname p.1 == ".json")).filter
          (fun p => (predDir.lookup p.1).isNone) := by
      apply List.filter_congr
      intro p _
      exact processPair_isMissing predDir p
    rw [hf]
    rfl
  have h3 : (((gtFiles.filter (fun p => extname p.1 == ".json")).map
        (fun p => (p.1, processPair predDir p.1 p.2))).filter
          (fun o => o.2.isParseError)).map (fun o => o.1) =
      badParseFiles gtFiles predDir := by
    unfold badParseFiles
    rw [List.filter_map, List.map_map]
    have hf : List.filter ((fun (o : String × PairOutcome) => o.2.isParseError) ∘
          fun p => (p.1, processPair predDir p.1 p.2))
        (gtFiles.filter (fun p => extname p.1 == ".json")) =
        (gtFiles.filter (fun p => extname p.1 == ".json")).filter (fun p =>
          match predDir.lookup p.1, p.2 with
          | some (some _), some _ => false
          | none, _ => false
          | _, _ => true) := by
      apply List.filter_congr
      intro p _
      exact processPair_isError predDir p
    rw [hf]
    rfl
  rw [h1, h2, h3]
  by_cases hz : loadedPairs gtFiles predDir = []
  · rw [if_pos hz, if_pos (by rw [hz]; rfl)]
  · rw [if_neg hz, if_neg (fun hlen => hz (List.length_eq_zero.mp hlen))]

/-- Claim C8: per-pair failures are contained by the batch driver.  With a
readable ground-truth directory and two arguments, the run's warnings are
exactly the `.json` ground-truth files with no prediction counterpart, its
reported errors are exactly the pairs where a document fails to parse, the
remaining pairs are still processed, and the emitted report is exactly the
aggregation over the successfully loaded pairs (so a skipped pair
contributes zero to every count), `none` only when no pair loaded. -/
theorem c8_per_pair_containment (args : List String)
    (gtFiles predDir : List (String × Option LabelSet)) (h : args.length = 2) :
    mainModel args (.ok gtFiles) predDir =
      if loadedPairs gtFiles predDir = [] then
        ⟨0, false, false, true, missingPredFiles gtFiles predDir,
          badParseFiles gtFiles predDir, none⟩
      else
        ⟨0, false, false, false, missingPredFiles gtFiles predDir,
          badParseFiles gtFiles predDir,
          some (aggregateResults (loadedPairs gtFiles predDir))⟩ :=
  mainModel_ok_eq args gtFiles predDir h

/-- Claim C8, witness: a run over a concrete directory with one loadable pair
and one ground-truth file lacking its prediction counterpart. -/
theorem c8_witness :
    mainModel ["gt", "pred"]
        (.ok [("a.json", some ⟨"a", []⟩), ("b.json", some ⟨"b", []⟩)])
        [("a.json", some ⟨"a", []⟩)] =
      if loadedPairs [("a.json", some ⟨"a", []⟩), ("b.json", some ⟨"b", []⟩)]
          [("a.json", some ⟨"a", []⟩)] = [] then
        ⟨0, false, false, true,
          missingPredFiles [("a.json", some ⟨"a", []⟩), ("b.json", some ⟨"b", []⟩)]
            [("a.json", some ⟨"a", []⟩)],
          badParseFiles [("a.json", some ⟨"a", []⟩), ("b.json", some ⟨"b", []⟩)]
            [("a.json", some ⟨"a", []⟩)], none⟩
      else
        ⟨0, false, false, false,
          missingPredFiles [("a.json", some ⟨"a", []⟩), ("b.json", some ⟨"b", []⟩)]
            [("a.json", some ⟨"a", []⟩)],
          badParseFiles [("a.json", some ⟨"a", []⟩), ("b.json", some ⟨"b", []⟩)]
            [("a.json", some ⟨"a", []⟩)],
          some (aggregateResults (loadedPairs
            [("a.json", some ⟨"a", []⟩), ("b.json", some ⟨"b", []⟩)]
            [("a.json", some ⟨"a", []⟩)]))⟩ :=
  c8_per_pair_containment ["gt", "pred"] _ _ rfl

/-- Claim C9: the batch driver's termination behavior — exit 1 with a usage
message on a wrong argument count, exit 1 when the ground-truth directory
cannot be read, a "no data" message with no report and exit 0 when zero
pairs load, and otherwise the printed report with exit 0. -/
theorem c9_termination :
    (∀ (args : List String) (d : Except Unit (List (String × Option LabelSet)))
        (p : List (String × Option LabelSet)), args.length ≠ 2 →
      mainModel args d p = ⟨1, true, false, false, [], [], none⟩) ∧
    (∀ (args : List String) (p : List (String × Option LabelSet)), args.length = 2 →
      mainModel args (.error ()) p = ⟨1, false, true, false, [], [], none⟩) ∧
    (∀ (args : List String) (gtFiles predDir : List (String × Option LabelSet)),
      args.length = 2 → loadedPairs gtFiles predDir = [] →
        mainModel args (.ok gtFiles) predDir =
          ⟨0, false, false, true, missingPredFiles gtFiles predDir,
            badParseFiles gtFiles predDir, none⟩) ∧
    (∀ (args : List String) (gtFiles predDir : List (String × Option LabelSet)),
      args.length = 2 → loadedPairs gtFiles predDir ≠ [] →
        mainModel args (.ok gtFiles) predDir =
          ⟨0, false, false, false, missingPredFiles gtFiles predDir,
            badParseFiles gtFiles predDir,
            some (aggregateResults (loadedPairs gtFiles predDir))⟩) := by
  refine ⟨?_, ?_, ?_, ?_⟩
  · intro args d p h
    unfold mainModel
    rw [if_pos h]
  · intro args p h
    unfold mainModel
    rw [if_neg (by omega)]
  · intro args gtFiles predDir h hz
    rw [mainModel_ok_eq args gtFiles predDir h, if_pos hz]
  · intro args gtFiles predDir h hz
    rw [mainModel_ok_eq args gtFiles predDir h, if_neg hz]

/-- Claim C9, witness: the four termination cases at concrete inputs. -/
theorem c9_witness :
    mainModel ["x"] (.ok []) [] = ⟨1, true, false, false, [], [], none⟩ ∧
    mainModel ["a", "b"] (.error ()) [] = ⟨1, false, true, false, [], [], none⟩ ∧
    mainModel ["a", "b"] (.ok []) [] = ⟨0, false, false, true, [], [], none⟩ ∧
    mainModel ["a", "b"] (.ok [("a.json", some ⟨"a", []⟩)]) [("a.json", some ⟨"a", []⟩)] =
      ⟨0, false, false, false,
        missingPredFiles [("a.json", some ⟨"a", []⟩)] [("a.json", some ⟨"a", []⟩)],
        badParseFiles [("a.json", some ⟨"a", []⟩)] [("a.json", some ⟨"a", []⟩)],
        some (aggregateResults (loadedPairs [("a.json", some ⟨"a", []⟩)]
          [("a.json", some ⟨"a", []⟩)]))⟩ := by
  have hl : loadedPairs [("a.json", some ⟨"a", []⟩)] [("a.json", some ⟨"a", []⟩)] =
      [evaluateSingleFile ⟨"a", []⟩ ⟨"a", []⟩] := by
    unfold loadedPairs
    simp only [List.filter_cons, List.filter_nil,
      show (extname "a.json" == ".json") = true from by decide, if_true,
      List.filterMap_cons, List.filterMap_nil, List.lookup,
      show (("a.json" : String) == "a.json") = true from by decide]
  refine ⟨c9_termination.1 ["x"] (.ok []) [] (by decide),
    c9_termination.2.1 ["a", "b"] [] rfl,
    c9_termination.2.2.1 ["a", "b"] [] [] rfl rfl,
    c9_termination.2.2.2 ["a", "b"] [("a.json", some ⟨"a", []⟩)] [("a.json", some ⟨"a", []⟩)]
      rfl (by rw [hl]; exact List.cons_ne_nil _ _)⟩
